import Mathlib

/-!
Verification of the promptkit repository against its specification.

Part 1 (`GoodPm`) is a shallow embedding of the Stop-event hook
`src/good-pm/hooks/good-pm-session-update.py`.  JSON values are modelled by
an inductive type; Python dictionary/list operations that can raise
(`AttributeError`, `TypeError`, `KeyError`) are modelled in the `Except`
monad with a single opaque error value, since the hook never catches those
exception classes and the claims only ask whether an exception propagates.
The outside world (stdin, the transcript file, the two directory-existence
checks) is a `World` record; a transcript file is a list of lines, each
line being either blank after stripping, non-JSON, or a parsed JSON value.

Part 2 (`Classify`) models the cascading file-classification engine
described by the specification.  That engine's code is not part of the
sources under verification, so every definition there is modelled from the
spec's words (see the doc comments).
-/

namespace GoodPm

/-- JSON values as produced by `json.loads` / consumed by `json.dumps`.
Numbers are modelled as integers (no claim depends on float behaviour). -/
inductive Json where
  | null : Json
  | bool (b : Bool) : Json
  | num (n : Int) : Json
  | str (s : String) : Json
  | arr (xs : List Json) : Json
  | obj (fields : List (String × Json)) : Json

/-- A Python exception escaping the hook.  The hook only ever catches
`json.JSONDecodeError` (modelled structurally) and `IOError`/`OSError`
(modelled by `Option` on the file read), so every other raised exception
is a single opaque value. -/
inductive PyErr where
  | exn : PyErr
deriving DecidableEq

/-- One physical line of the transcript file, after `line.strip()`:
blank, not valid JSON (`json.loads` raises `JSONDecodeError`), or parsed. -/
inductive TLine where
  | blank : TLine
  | bad : TLine
  | val (j : Json) : TLine

/-- The ambient state the hook observes: parsed stdin (`none` models a
`json.JSONDecodeError` from `json.load`), the file system (`none` models
`IOError`/`OSError` on `open`), and the two directory-existence checks
`Path(".good-pm").exists()` and `Path(".good-pm/session").exists()`. -/
structure World where
  stdin : Option Json
  fileLines : Json → Option (List TLine)
  goodPmExists : Bool
  sessionDirExists : Bool

/-- First-match association-list lookup, the model of Python dict lookup
(JSON-decoded dicts have distinct keys). -/
def lookupKey : List (String × Json) → String → Option Json
  | [], _ => none
  | (k', v) :: r, k => if k' = k then some v else lookupKey r k

/-- Total `dict.get(k, d)` on a value already known to be an object;
returns the default on non-objects (spec-side helper, never raises). -/
def jsonGetD (j : Json) (k : String) (d : Json) : Json :=
  match j with
  | .obj fs => (lookupKey fs k).getD d
  | _ => d

/-- Python `x.get(k, d)`: `AttributeError` unless `x` is a dict. -/
def pyGetD (j : Json) (k : String) (d : Json) : Except PyErr Json :=
  match j with
  | .obj fs => .ok ((lookupKey fs k).getD d)
  | _ => .error .exn

/-- Python `x[k]` for a string key `k`: `TypeError` on non-dicts,
`KeyError` on a missing key. -/
def pyIndex (j : Json) (k : String) : Except PyErr Json :=
  match j with
  | .obj fs =>
    match lookupKey fs k with
    | some v => .ok v
    | none => .error .exn
  | _ => .error .exn

/-- Substring test on character lists (structural, so that concrete
instances evaluate). -/
def subList (pat : List Char) : List Char → Bool
  | [] => pat.isEmpty
  | c :: rest => pat.isPrefixOf (c :: rest) || subList pat rest

/-- Substring test, the model of Python `pat in s` for strings. -/
def strContains (s pat : String) : Bool :=
  subList pat.data s.data

/-- Python `s.lower()` (ASCII case folding suffices for the hook's
keyword lists). -/
def lowerStr (s : String) : String :=
  ⟨s.data.map Char.toLower⟩

/-- Python `" ".join(ts)`. -/
def joinSp : List String → String
  | [] => ""
  | [t] => t
  | t :: r => t ++ " " ++ joinSp r

/-- Python `k in x` for a string `k`: key membership on dicts, substring
on strings, element equality on lists, `TypeError` otherwise. -/
def pyContains (j : Json) (k : String) : Except PyErr Bool :=
  match j with
  | .obj fs => .ok (fs.any (fun kv => kv.1 = k))
  | .str s => .ok (strContains s k)
  | .arr xs => .ok (xs.any (fun e => match e with | .str t => t = k | _ => false))
  | _ => .error .exn

/-- Python `v == lit` for a string literal `lit` (equality across types is
`False`, never an error). -/
def jeqStr (j : Json) (lit : String) : Bool :=
  match j with
  | .str s => s = lit
  | _ => false

/-- Python truthiness of a JSON-decoded value. -/
def jsonTruthy (j : Json) : Bool :=
  match j with
  | .null => false
  | .bool b => b
  | .num n => n != 0
  | .str s => !s.data.isEmpty
  | .arr xs => !xs.isEmpty
  | .obj fs => !fs.isEmpty

/-- Python `for x in v`: list elements, string characters (one-character
strings), dict keys; `TypeError` otherwise. -/
def pyIter (j : Json) : Except PyErr (List Json) :=
  match j with
  | .arr xs => .ok xs
  | .str s => .ok (s.data.map (fun c => .str ⟨[c]⟩))
  | .obj fs => .ok (fs.map (fun kv => .str kv.1))
  | _ => .error .exn

/-- Is the value a JSON object? -/
def Json.isObjB : Json → Bool
  | .obj _ => true
  | _ => false

/-- Is the value a JSON string? -/
def Json.isStrB : Json → Bool
  | .str _ => true
  | _ => false

/-- Processing of one parsed transcript line inside `load_transcript`:
the body of the `for line in f` loop after `json.loads` succeeded
(source lines 34-38).  Returns the conversation entry to append, if any. -/
def procLine (j : Json) : Except PyErr (Option Json) :=
  match pyContains j "type" with
  | .error e => .error e
  | .ok b =>
    if b then
      match pyIndex j "type" with
      | .error e => .error e
      | .ok t =>
        if jeqStr t "user" || jeqStr t "assistant" then
          match pyGetD j "message" (.obj []) with
          | .error e => .error e
          | .ok m =>
            match pyGetD m "content" (.str "") with
            | .error e => .error e
            | .ok c => .ok (some (.obj [("role", t), ("content", c)]))
        else .ok none
    else .ok none

/-- The line loop of `load_transcript` (source lines 28-40). -/
def procLines : List TLine → Except PyErr (List Json)
  | [] => .ok []
  | l :: r =>
    match l with
    | .blank => procLines r
    | .bad => procLines r
    | .val j =>
      match procLine j with
      | .error e => .error e
      | .ok none => procLines r
      | .ok (some entry) =>
        match procLines r with
        | .error e => .error e
        | .ok rest => .ok (entry :: rest)

/-- `load_transcript` (source lines 23-43).  `open` raises `TypeError` on
a list/dict/None argument (not caught); an `IOError`/`OSError` (`none`
from the file system, including bad file descriptors for numeric
arguments) is caught and yields the empty transcript. -/
def load_transcript (fs : Json → Option (List TLine)) (p : Json) :
    Except PyErr (List Json) :=
  match p with
  | .arr _ => .error .exn
  | .obj _ => .error .exn
  | .null => .error .exn
  | _ =>
    match fs p with
    | none => .ok []
    | some lns => procLines lns

/-- The eight PM keywords (source lines 91-94). -/
def pmKeywords : List String :=
  ["good-pm", ".good-pm", "spec", "issue", "create-spec",
   "create-issues", "implementation", "acceptance criteria"]

/-- The seven update indicators (source lines 140-148). -/
def updateIndicators : List String :=
  ["session context updated",
   "updated session",
   "notes for next session",
   "session handoff",
   "updated .good-pm/session",
   "no updates needed",
   "no changes needed"]

/-- The block reason (source line 158; quotation marks around the quoted
phrases are omitted, nothing in the claims depends on the exact text). -/
def reasonText : String :=
  "Review session context before ending. Check .good-pm/session/current.md and apply the Future Self test. Say no updates needed or update the file, then complete your response."

/-- The printed approval object. -/
def approveJson : Json := .obj [("decision", .str "approve")]

/-- The printed block object. -/
def blockJson : Json :=
  .obj [("decision", .str "block"), ("reason", .str reasonText)]

/-- The inner loop of the tool-usage check (source lines 100-104): stop at
the first `tool_use` block; `block.get` raises on non-dict blocks. -/
def scanToolUse : List Json → Except PyErr Bool
  | [] => .ok false
  | b :: r =>
    match pyGetD b "type" .null with
    | .error e => .error e
    | .ok t =>
      if jeqStr t "tool_use" then .ok true
      else scanToolUse r

/-- The texts of the `type == "text"` blocks of a content list, as
collected by the generator inside `" ".join(...)` (source lines 112-116
and 131-135); a non-string `text` value makes `join` raise `TypeError`. -/
def collectTexts : List Json → Except PyErr (List String)
  | [] => .ok []
  | b :: r =>
    match pyGetD b "type" .null with
    | .error e => .error e
    | .ok t =>
      if jeqStr t "text" then
        match pyGetD b "text" (.str "") with
        | .error e => .error e
        | .ok x =>
          match x with
          | .str sx =>
            match collectTexts r with
            | .error e => .error e
            | .ok rest => .ok (sx :: rest)
          | _ => .error .exn
      else collectTexts r

/-- One iteration of the activity loop (source lines 96-119): returns the
tool-usage and PM-activity contributions of one message. -/
def flagsStep (m : Json) : Except PyErr (Bool × Bool) :=
  match pyGetD m "content" (.str "") with
  | .error e => .error e
  | .ok c =>
    match (match c with
           | .arr bs => scanToolUse bs
           | _ => .ok false) with
    | .error e => .error e
    | .ok t =>
      match c with
      | .str s =>
        .ok (t, pmKeywords.any (fun kw => strContains (lowerStr s) kw))
      | .arr bs =>
        match collectTexts bs with
        | .error e => .error e
        | .ok ts =>
          .ok (t, pmKeywords.any (fun kw => strContains (lowerStr (joinSp ts)) kw))
      | _ => .ok (t, false)

/-- The activity loop (source lines 96-119), accumulating the
`has_tool_usage` and `has_pm_activity` flags. -/
def flagsGo (t p : Bool) : List Json → Except PyErr (Bool × Bool)
  | [] => .ok (t, p)
  | m :: r =>
    match flagsStep m with
    | .error e => .error e
    | .ok (t', p') => flagsGo (t || t') (p || p') r

/-- `has_tool_usage` / `has_pm_activity` after the activity loop. -/
def computeFlags (msgs : List Json) : Except PyErr (Bool × Bool) :=
  flagsGo false false msgs

/-- The reversed search for the last assistant message (source lines
127-137), on an already-reversed list; the found message's list content
is joined into a single string. -/
def findLAGo : List Json → Except PyErr (Option Json)
  | [] => .ok none
  | m :: r =>
    match pyGetD m "role" .null with
    | .error e => .error e
    | .ok rl =>
      if jeqStr rl "assistant" then
        match pyGetD m "content" (.str "") with
        | .error e => .error e
        | .ok c =>
          match c with
          | .arr bs =>
            match collectTexts bs with
            | .error e => .error e
            | .ok ts => .ok (some (.str (joinSp ts)))
          | _ => .ok (some c)
      else findLAGo r

/-- `last_assistant_msg` (source lines 126-137). -/
def findLastAssistant (msgs : List Json) : Except PyErr (Option Json) :=
  findLAGo msgs.reverse

/-- Transcript extraction (source lines 57-61): a truthy `transcript_path`
is loaded from the file system, otherwise the inline `transcript` field
(default `[]`) is used. -/
def extractTranscript (w : World) (hi : Json) : Except PyErr Json :=
  match pyGetD hi "transcript_path" .null with
  | .error e => .error e
  | .ok tp =>
    if jsonTruthy tp then
      match load_transcript w.fileLines tp with
      | .error e => .error e
      | .ok l => .ok (.arr l)
    else pyGetD hi "transcript" (.arr [])

/-- `main` after transcript extraction (source lines 63-164). -/
def mainCore (w : World) (hi tsJson : Json) : Except PyErr (Json × Nat) :=
  match pyGetD hi "stop_hook_active" (.bool false) with
  | .error e => .error e
  | .ok sha =>
    if jsonTruthy sha then .ok (approveJson, 0)
    else if !w.goodPmExists then .ok (approveJson, 0)
    else if !w.sessionDirExists then .ok (approveJson, 0)
    else
      match pyIter tsJson with
      | .error e => .error e
      | .ok msgs =>
        match computeFlags msgs with
        | .error e => .error e
        | .ok (t, p) =>
          if !t && !p then .ok (approveJson, 0)
          else
            match findLastAssistant msgs with
            | .error e => .error e
            | .ok none => .ok (blockJson, 0)
            | .ok (some la) =>
              if jsonTruthy la then
                match la with
                | .str s =>
                  if updateIndicators.any (fun ind => strContains (lowerStr s) ind) then
                    .ok (approveJson, 0)
                  else .ok (blockJson, 0)
                | _ => .error .exn
              else .ok (blockJson, 0)

/-- `main` (source lines 46-164): the returned pair is the printed JSON
object and the return value passed to `sys.exit`. -/
def main (w : World) : Except PyErr (Json × Nat) :=
  match w.stdin with
  | none => .ok (approveJson, 0)
  | some hi =>
    match extractTranscript w hi with
    | .error e => .error e
    | .ok ts => mainCore w hi ts

/-! ### Specification-side predicates for the claims

These follow the wording of the claims, phrased over the list of
transcript messages the hook ends up iterating. -/

/-- String content of a JSON value, empty for non-strings. -/
def strOfD : Json → String
  | .str s => s
  | _ => ""

/-- The texts of the `type == "text"` blocks, spec side (total). -/
def specTexts (bs : List Json) : List String :=
  bs.filterMap (fun b =>
    if jeqStr (jsonGetD b "type" .null) "text" then
      some (strOfD (jsonGetD b "text" (.str "")))
    else none)

/-- The text of a message: its string content, or the joined texts of its
text blocks for list content. -/
def msgText (m : Json) : String :=
  match jsonGetD m "content" (.str "") with
  | .str s => s
  | .arr bs => joinSp (specTexts bs)
  | _ => ""

/-- Does the message carry a `tool_use` content block? -/
def specToolB (m : Json) : Bool :=
  match jsonGetD m "content" (.str "") with
  | .arr bs => bs.any (fun b => jeqStr (jsonGetD b "type" .null) "tool_use")
  | _ => false

/-- Does the message's text contain a PM keyword (case-insensitive
substring)? -/
def specPmB (m : Json) : Bool :=
  pmKeywords.any (fun kw => strContains (lowerStr (msgText m)) kw)

/-- Is the message an assistant message? -/
def asstB (m : Json) : Bool :=
  jeqStr (jsonGetD m "role" .null) "assistant"

/-- The value `last_assistant_msg` holds for a given assistant message:
list content is joined into its text, anything else is kept as is. -/
def laTextJson (m : Json) : Json :=
  match jsonGetD m "content" (.str "") with
  | .arr bs => .str (joinSp (specTexts bs))
  | c => c

/-- Does the last assistant message (if one exists) contain none of the
update indicators (case-insensitive substring)? -/
def specLastOk (msgs : List Json) : Bool :=
  match msgs.reverse.find? asstB with
  | none => true
  | some m =>
    updateIndicators.all (fun ind => !(strContains (lowerStr (msgText m)) ind))

/-- The blocking condition of claim C1: `stop_hook_active` falsy, both
directories exist, tool usage or PM activity in the transcript, and no
update indicator in the last assistant message. -/
def blockCond (w : World) (hi : Json) (msgs : List Json) : Bool :=
  !(jsonTruthy (jsonGetD hi "stop_hook_active" (.bool false))) &&
  w.goodPmExists && w.sessionDirExists &&
  (msgs.any specToolB || msgs.any specPmB) &&
  specLastOk msgs

/-- Well-formedness of one content block: a JSON object whose `text`
field (when the block's type is `text`) is a string. -/
def wfBlock (b : Json) : Bool :=
  match b with
  | .obj _ =>
    if jeqStr (jsonGetD b "type" .null) "text" then
      (jsonGetD b "text" (.str "")).isStrB
    else true
  | _ => false

/-- Well-formedness of message content: a string, or a list of
well-formed blocks. -/
def wfContent : Json → Bool
  | .str _ => true
  | .arr bs => bs.all wfBlock
  | _ => false

/-- A well-formed transcript message: a JSON object with well-formed
content. -/
def wfMsg (m : Json) : Bool :=
  match m with
  | .obj _ => wfContent (jsonGetD m "content" (.str ""))
  | _ => false

/-- A transcript-file line on which the `load_transcript` loop cannot
raise (the amended claim C3: everything except the four raising shapes).
Raising lines are exactly: a number/boolean/null (`"type" in entry` is a
`TypeError`), a string containing `type` as a substring or a list
containing the string `type` (membership succeeds, then `entry["type"]`
is a `TypeError`), and a user/assistant object whose present `message`
is not an object (`.get` on it is an `AttributeError`).  Every other
line is processed or skipped without an exception. -/
def safeLine : TLine → Bool
  | .blank => true
  | .bad => true
  | .val j =>
    match j with
    | .obj fs =>
      match lookupKey fs "type" with
      | none => true
      | some t =>
        if jeqStr t "user" || jeqStr t "assistant" then
          match lookupKey fs "message" with
          | none => true
          | some (.obj _) => true
          | some _ => false
        else true
    | .str s => !(strContains s "type")
    | .arr xs => !(xs.any (fun e => match e with | .str t => t = "type" | _ => false))
    | _ => false

/-- Spec side of claim C3: the entry contributed by one transcript line,
following the claim's wording (`role` is the entry's `type`, `content` is
`message.content` with the empty string as double default). -/
def lineEntry : TLine → Option Json
  | .blank => none
  | .bad => none
  | .val j =>
    match j with
    | .obj fs =>
      match lookupKey fs "type" with
      | some (.str t) =>
        if t = "user" || t = "assistant" then
          some (.obj [("role", .str t),
                      ("content", jsonGetD ((lookupKey fs "message").getD (.obj [])) "content" (.str ""))])
        else none
      | _ => none
    | _ => none

/-- Does the JSON object carry the key? -/
def hasKey (j : Json) (k : String) : Bool :=
  match j with
  | .obj fs => fs.any (fun kv => kv.1 = k)
  | _ => false

/-- A world whose stdin is the empty JSON object outside a Good PM
project. -/
def trivialWorld : World :=
  { stdin := some (.obj [])
    fileLines := fun _ => none
    goodPmExists := false
    sessionDirExists := false }

/-- A world with no parsable stdin. -/
def noInputWorld : World :=
  { stdin := none
    fileLines := fun _ => none
    goodPmExists := false
    sessionDirExists := false }

/-- A world whose stdin object carries a non-iterable inline
`transcript` value (and whose transcript file is empty, hence
well-formed). -/
def inlineNumWorld : World :=
  { stdin := some (.obj [("transcript", .num 5)])
    fileLines := fun _ => some []
    goodPmExists := true
    sessionDirExists := true }

/-- A transcript file with a single line holding the JSON number 5. -/
def numLineFile : Json → Option (List TLine) := fun _ => some [.val (.num 5)]

/-- A transcript file whose single conversation line is a user entry,
next to a blank line, a non-JSON line, a benign JSON-string line and a
non-conversation entry with a numeric `message` — all skipped without an
exception. -/
def goodFile : Json → Option (List TLine) := fun _ =>
  some [.blank, .bad,
        .val (.str "hello"),
        .val (.obj [("type", .str "user"),
                    ("message", .obj [("content", .str "hi")])]),
        .val (.obj [("type", .str "summary"), ("message", .num 5)])]

end GoodPm

namespace Classify

/-- Modelled from the spec: the closed enumeration of 8 categories
(section 3, Data Model). -/
inductive Category where
  | config | tests | docs | scripts | sourceCode | data | aiTooling | other
deriving DecidableEq

/-- Modelled from the spec: the closed confidence enumeration
(section 3, Data Model). -/
inductive Confidence where
  | high | medium | low
deriving DecidableEq

/-- The categories in their result order. -/
def allCategories : List Category :=
  [.config, .tests, .docs, .scripts, .sourceCode, .data, .aiTooling, .other]

/-- Lower-case a character list. -/
def lowerChars (cs : List Char) : List Char := cs.map Char.toLower

/-- `t` is a leading part of `s`. -/
def strStarts (s t : String) : Bool := t.data.isPrefixOf s.data

/-- `t` is a trailing part of `s`. -/
def strEnds (s t : String) : Bool := t.data.isSuffixOf s.data

/-- `t` occurs inside `s`. -/
def strHas (s t : String) : Bool := GoodPm.subList t.data s.data

/-- Split a character list on a separator character. -/
def splitOnChar (sep : Char) : List Char → List (List Char)
  | [] => [[]]
  | c :: r =>
    match splitOnChar sep r with
    | [] => [[]]
    | g :: gs => if c = sep then [] :: g :: gs else (c :: g) :: gs

/-- The extension of a filename (empty for extensionless names and for
pure dotfiles such as `.gitignore`). -/
def extOf (n : String) : String :=
  match splitOnChar '.' n.data with
  | [] => ""
  | [_] => ""
  | g₀ :: rest =>
    if g₀.isEmpty && rest.length = 1 then "" else ⟨rest.getLastD []⟩

/-- The stem of a filename (the name with `.extension` removed). -/
def stemOf (n : String) : String :=
  if extOf n = "" then n
  else ⟨n.data.take (n.data.length - ((extOf n).data.length + 1))⟩

/-- The filename component of a relative path. -/
def lastName (p : List String) : String := p.getLastD ""

/-- The directory segments of a relative path. -/
def dirsOf (p : List String) : List String := p.dropLast

/-- Render a segment path with `/` separators. -/
def renderPath : List String → String
  | [] => ""
  | [s] => s
  | s :: r => s ++ "/" ++ renderPath r

/-- Modelled from the spec: the ordered directory-pattern table of
Phase 1 step 1 (section 4.2); each entry lists the segment names its
regex accepts, earlier entries win. -/
def dirTable : List (List String × Category) :=
  [(["tests", "test", "__tests__", "spec", "e2e"], .tests),
   (["docs", "doc", "documentation", "references", "reference"], .docs),
   (["scripts", "script", "bin", "tools"], .scripts),
   (["src", "lib", "pkg", "app", "core", "backend", "frontend"], .sourceCode),
   (["data", "datasets", "dataset", "fixtures", "samples", "sample"], .data),
   ([".claude", ".cursor", ".ai", "prompts", "prompt"], .aiTooling),
   (["config", "conf", ".config", ".vscode"], .config)]

/-- Phase 1 step 1: first table entry one of whose names matches some
directory segment. -/
def dirTableMatch (dirs : List String) : Option Category :=
  dirTable.findSome? (fun tc =>
    if dirs.any (fun d => tc.1.contains d) then some tc.2 else none)

/-- Modelled from the spec: the AI-tooling filename set and pattern
(Phase 1 step 2). -/
def aiFileNames : List String := ["CLAUDE.md", "AGENTS.md", ".cursorrules", ".clinerules"]

/-- Phase 1 step 2. -/
def aiFileMatch (n : String) : Bool :=
  aiFileNames.contains n || strEnds n ".prompt.md"

/-- Modelled from the spec: the schema/spec filename set (Phase 1
step 3). -/
def schemaFileNames : List String := ["openapi.yaml", "openapi.json", "swagger.json"]

/-- Phase 1 step 3 (schemas are treated as documentation). -/
def schemaFileMatch (n : String) : Bool :=
  schemaFileNames.contains n || strEnds n ".schema.json" ||
  strEnds n ".proto" || strEnds n ".graphql"

/-- Phase 1 step 4: the test-naming patterns. -/
def testFileMatch (n : String) : Bool :=
  (extOf n != "" &&
    (strEnds (stemOf n) "_test" || strStarts n "test_" || stemOf n = "conftest")) ||
  strHas n ".test."

/-- Modelled from the spec: the known config filename set (Phase 1
step 5). -/
def configFileNames : List String :=
  ["Makefile", "Dockerfile", ".gitignore", ".gitattributes",
   "package.json", "pyproject.toml"]

/-- Phase 1 step 5: config filenames and patterns. -/
def configFileMatch (n : String) : Bool :=
  configFileNames.contains n || strHas n ".config." ||
  ["toml", "ini", "cfg"].contains (extOf n) ||
  (strStarts n "." && strEnds n "rc") ||
  (extOf n != "" && strEnds (stemOf n) "rc") ||
  strStarts n "docker-compose" ||
  (strStarts n "requirements" && extOf n = "txt")

/-- Modelled from the spec: the doc-basename set (Phase 1 step 6). -/
def docBaseNames : List String :=
  ["readme", "changelog", "contributing", "license", "licence", "authors", "todo", "notes"]

/-- Phase 1 step 6. -/
def docFileMatch (n : String) : Bool :=
  docBaseNames.contains (GoodPm.lowerStr (stemOf n)) ||
  strStarts (GoodPm.lowerStr n) "readme"

/-- Modelled from the spec: the script-extension set (Phase 1 step 7). -/
def scriptExts : List String := ["sh", "bash", "zsh", "fish", "bat", "cmd", "ps1"]

/-- Modelled from the spec: the source-extension set (Phase 1 step 8). -/
def sourceExts : List String :=
  ["py", "js", "ts", "jsx", "tsx", "rs", "go", "java", "kt", "c", "h",
   "cpp", "hpp", "cs", "rb", "php", "swift", "scala"]

/-- Modelled from the spec: the data-extension set (Phase 1 step 9). -/
def dataExts : List String :=
  ["json", "yaml", "yml", "csv", "tsv", "xml", "parquet", "db", "sqlite"]

/-- The structured extensions reclassified to Config at the scan root. -/
def structuredExts : List String := ["json", "yaml", "yml"]

/-- Phase 1 step 9: Data inside a subdirectory; at the root, Config for
json/yaml/yml and Data otherwise. -/
def dataRule (p : List String) (n : String) : Category :=
  if 2 ≤ p.length then .data
  else if structuredExts.contains (extOf n) then .config
  else .data

/-- Modelled from the spec: the Path Classifier, Phase 1 (section 4.2),
steps 1-9 in order, first match wins, no content read. -/
def pathClassify (p : List String) : Option Category :=
  match dirTableMatch (dirsOf p) with
  | some c => some c
  | none =>
    let n := lastName p
    if aiFileMatch n then some .aiTooling
    else if schemaFileMatch n then some .docs
    else if testFileMatch n then some .tests
    else if configFileMatch n then some .config
    else if docFileMatch n then some .docs
    else if scriptExts.contains (extOf n) then some .scripts
    else if sourceExts.contains (extOf n) then some .sourceCode
    else if dataExts.contains (extOf n) then some (dataRule p n)
    else none

/-- Strip surrounding spaces from a character list. -/
def trimSpaces (cs : List Char) : List Char :=
  ((cs.dropWhile (fun c => c = ' ')).reverse.dropWhile (fun c => c = ' ')).reverse

/-- Modelled from the spec: collect the lower-cased keys of the
frontmatter block, line by line until the closing `---`; no closing
delimiter means no frontmatter (section 4.3). -/
def collectKeys : List (List Char) → Option (List String)
  | [] => none
  | l :: r =>
    if l = ['-', '-', '-'] then some []
    else
      match collectKeys r with
      | none => none
      | some ks =>
        if l.contains ':' then
          some (⟨lowerChars (trimSpaces (l.takeWhile (fun c => c ≠ ':')))⟩ :: ks)
        else some ks

/-- Modelled from the spec: the AI-indicator frontmatter keys
(section 4.3). -/
def aiIndicatorKeys : List String :=
  ["name", "description", "model", "tools", "temperature", "system"]

/-- Modelled from the spec: the config-indicator frontmatter keys
(section 4.3). -/
def configIndicatorKeys : List String :=
  ["version", "env", "settings", "port", "host"]

/-- The frontmatter decision rule (section 4.3). -/
def fmDecision (ks : List String) : Option Category :=
  let kset := ks.eraseDups
  if kset.contains "name" && kset.contains "description" then some .aiTooling
  else if 2 ≤ (kset.filter (fun k => aiIndicatorKeys.contains k)).length then some .aiTooling
  else if !(kset.filter (fun k => configIndicatorKeys.contains k)).isEmpty then some .config
  else none

/-- Modelled from the spec: the Frontmatter Analyzer, Phase 2
(section 4.3). -/
def frontmatterCat (content : String) : Option Category :=
  match splitOnChar '\n' content.data with
  | [] => none
  | l₀ :: rest =>
    if l₀ = ['-', '-', '-'] then
      match collectKeys rest with
      | none => none
      | some ks => fmDecision ks
    else none

/-- Count (possibly overlapping) occurrences of a pattern. -/
def countSub (pat : List Char) : List Char → Nat
  | [] => 0
  | c :: r => (if pat.isPrefixOf (c :: r) then 1 else 0) + countSub pat r

/-- Modelled from the spec: the per-category signal sets of Phase 3, in
priority order Tests, Scripts, AI Tooling, Source Code, Docs, Data
(section 4.4). -/
def signalTable : List (Category × List String) :=
  [(.tests, ["assert", "pytest", "unittest", "describe("]),
   (.scripts, ["#!/", "set -e", "argparse", "getopts"]),
   (.aiTooling, ["you are", "system prompt", "few-shot", "prompt:"]),
   (.sourceCode, ["import ", "def ", "class ", "function "]),
   (.docs, ["# ", "## ", "](http"]),
   (.data, ["<?xml", "],[", "null"])]

/-- Modelled from the spec: the Content Structure Analyzer, Phase 3:
first 5 KB, case-insensitive, first category reaching 2 signal matches
wins (section 4.4). -/
def structureCat (content : String) : Option Category :=
  let sample := lowerChars (content.data.take 5120)
  signalTable.findSome? (fun cs =>
    if 2 ≤ (cs.2.map (fun sg => countSub sg.data sample)).sum then some cs.1
    else none)

/-- Modelled from the spec: the ordered keyword table of Phase 4
(section 4.5). -/
def keywordTable : List (Category × List String) :=
  [(.tests, ["test", "assert", "mock", "fixture"]),
   (.docs, ["documentation", "usage", "example", "guide"]),
   (.scripts, ["script", "deploy", "install", "build"]),
   (.config, ["config", "settings", "environment", "version"]),
   (.sourceCode, ["return", "import", "class", "module"]),
   (.data, ["record", "dataset", "rows", "schema"]),
   (.aiTooling, ["prompt", "agent", "llm", "assistant"])]

/-- Best qualifying scored category: score at least 2, maximum score,
earliest table entry wins ties. -/
def bestQual : List (Category × Nat) → Option (Category × Nat)
  | [] => none
  | (c, n) :: r =>
    match bestQual r with
    | none => if 2 ≤ n then some (c, n) else none
    | some (c', n') => if 2 ≤ n && n' ≤ n then some (c, n) else some (c', n')

/-- Modelled from the spec: the Keyword Scorer, Phase 4: first 10 KB
lower-cased, literal substring counts, qualification threshold 2
(section 4.5).  A `none` verdict lands on the orchestrator's
(Other, Low) fallback, matching the spec's "no qualifying category →
Other" at Low confidence. -/
def keywordCat (content : String) : Option Category :=
  let sample := lowerChars (content.data.take 10240)
  (bestQual (keywordTable.map (fun ck =>
    (ck.1, (ck.2.map (fun kw => countSub kw.data sample)).sum)))).map (fun cn => cn.1)

/-- Modelled from the spec: `classifyFile` (section 4.6): Phase 1 with
High confidence; else (Other, Low) when content analysis is off; else
read (an unreadable file yields (Other, Low)), then Phases 2, 3, 4 in
order with Medium, Medium, Low confidence, and (Other, Low) when all
decline. -/
def classifyFile (readContent : List String → Option String) (p : List String)
    (analyzeContent : Bool) : Category × Confidence :=
  match pathClassify p with
  | some c => (c, .high)
  | none =>
    if analyzeContent then
      match readContent p with
      | none => (.other, .low)
      | some content =>
        match frontmatterCat content with
        | some c => (c, .medium)
        | none =>
          match structureCat content with
          | some c => (c, .medium)
          | none =>
            match keywordCat content with
            | some c => (c, .low)
            | none => (.other, .low)
    else (.other, .low)

/-- Modelled from the spec: scan options plus the two opaque external
capabilities, the ignore-file matcher and the content reader
(section 6). -/
structure ScanOptions where
  analyzeContent : Bool
  excludeHidden : Bool
  includeIgnored : Bool
  includeAll : Bool
  ignoreMatcher : Option (String → Bool)
  readContent : List String → Option String

/-- The outcome of the Exclusion Filter for one directory. -/
inductive ExclDecision where
  | keep | hidden | layer1 | layer2 | layer3
deriving DecidableEq

/-- Modelled from the spec: the Layer 1 always-exclude directory names
(section 4.1). -/
def alwaysExclude : List String :=
  [".git", ".hg", ".svn", "node_modules", "__pycache__", ".venv", "venv"]

/-- Modelled from the spec: hidden directory names that stay included
(section 4.1). -/
def hiddenAllow : List String := [".github", ".claude", ".vscode", ".config"]

/-- Modelled from the spec: the Layer 3 extended-exclude names
(section 4.1). -/
def extendedNames : List String :=
  ["build", "dist", "target", "coverage", "out", "vendor"]

/-- Modelled from the spec: the Layer 3 glob-style patterns
(section 4.1). -/
def extendedGlobs : List String := ["*.egg-info", "*-cache"]

/-- Glob matching for the extended patterns: a leading `*` matches any
(possibly empty) leading part. -/
def globMatch (pat n : String) : Bool :=
  if strStarts pat "*" then strEnds n ⟨pat.data.drop 1⟩ else pat = n

/-- The hidden-directory rule, run before the numbered layers
(section 4.1). -/
def hiddenExcl (o : ScanOptions) (n : String) : Bool :=
  o.excludeHidden && strStarts n "." && !(hiddenAllow.contains n)

/-- Modelled from the spec: the Exclusion Filter (section 4.1),
generalized over the Layer 3 tables so that their irrelevance in the
presence of an ignore matcher is statable.  Order: hidden rule, then
include-all, Layer 1, include-ignored, Layer 2 (authoritative when a
matcher exists), Layer 3. -/
def dirDecisionGen (extN extG : List String) (o : ScanOptions) (n : String)
    (rel : List String) : ExclDecision :=
  if hiddenExcl o n then .hidden
  else if o.includeAll then .keep
  else if alwaysExclude.contains n then .layer1
  else if o.includeIgnored then .keep
  else
    match o.ignoreMatcher with
    | some m => if m (renderPath rel ++ "/") then .layer2 else .keep
    | none =>
      if extN.contains n || extG.any (fun pat => globMatch pat n) then .layer3
      else .keep

/-- The Exclusion Filter with the default Layer 3 tables. -/
def dirDecision : ScanOptions → String → List String → ExclDecision :=
  dirDecisionGen extendedNames extendedGlobs

/-- Modelled from the spec: the per-scan exclusion statistics
(section 3). -/
structure ExclusionStats where
  hiddenCount : Nat
  layer1Count : Nat
  layer2Count : Nat
  layer3Count : Nat
  excludedDirs : List (List String)
deriving DecidableEq

/-- Fresh statistics at the start of a scan. -/
def emptyStats : ExclusionStats := ⟨0, 0, 0, 0, []⟩

/-- Record one pruned directory. -/
def recordExclusion (dec : ExclDecision) (p : List String) (st : ExclusionStats) :
    ExclusionStats :=
  { hiddenCount := st.hiddenCount + (if dec = .hidden then 1 else 0)
    layer1Count := st.layer1Count + (if dec = .layer1 then 1 else 0)
    layer2Count := st.layer2Count + (if dec = .layer2 then 1 else 0)
    layer3Count := st.layer3Count + (if dec = .layer3 then 1 else 0)
    excludedDirs := p :: st.excludedDirs }

/-- One traversal entry: a root-relative segment path and whether it is
a directory (section 9: the walk is a sorted sequence of
(path, isDirectory) entries). -/
structure ScanEntry where
  path : List String
  isDir : Bool

/-- The traversal state: classified files so far and exclusion
statistics. -/
structure ScanState where
  results : List (List String × Category × Confidence)
  stats : ExclusionStats

/-- `d` is a strict ancestor directory of `p`. -/
def strictAncestor (d p : List String) : Bool :=
  d.isPrefixOf p && d.length < p.length

/-- Is the entry a descendant of some pruned prefix (section 4.1)? -/
def skipByPruned (ex : List (List String)) (p : List String) : Bool :=
  ex.any (fun d => strictAncestor d p)

/-- Modelled from the spec: one traversal step (section 4.6): skip
descendants of pruned prefixes without re-evaluating rules, run the
Exclusion Filter on directories, classify files. -/
def scanStep (o : ScanOptions) (st : ScanState) (e : ScanEntry) : ScanState :=
  if skipByPruned st.stats.excludedDirs e.path then st
  else if e.isDir then
    let dec := dirDecision o (lastName e.path) e.path
    if dec = .keep then st
    else { st with stats := recordExclusion dec e.path st.stats }
  else
    { st with
      results := st.results ++ [(e.path, classifyFile o.readContent e.path o.analyzeContent)] }

/-- The traversal over a snapshot of entries. -/
def runScan (o : ScanOptions) (st : ScanState) : List ScanEntry → ScanState
  | [] => st
  | e :: r => runScan o (scanStep o st e) r

/-- Lexicographic comparison of character lists. -/
def lexLe : List Char → List Char → Bool
  | [], _ => true
  | _ :: _, [] => false
  | c :: r, d :: t => if c = d then lexLe r t else decide (c < d)

/-- Path order used to sort each category's list. -/
def pathLe (a b : List String) : Bool :=
  lexLe (renderPath a).data (renderPath b).data

/-- Sort one category list by path. -/
def sortByPath (l : List (List String × Confidence)) : List (List String × Confidence) :=
  List.insertionSort (fun a b => pathLe a.1 b.1 = true) l

/-- Modelled from the spec: the final ClassificationResult, an
ordered-by-category mapping to path-sorted lists (section 3). -/
def buildResult (raw : List (List String × Category × Confidence)) :
    List (Category × List (List String × Confidence)) :=
  allCategories.map (fun c =>
    (c, sortByPath (raw.filterMap (fun t =>
      if t.2.1 = c then some (t.1, t.2.2) else none))))

/-- Modelled from the spec: `classifyTree` (section 4.6) over a
depth-first sorted snapshot of entries, starting from fresh statistics. -/
def classifyTree (o : ScanOptions) (s : List ScanEntry) :
    (List (Category × List (List String × Confidence))) × ExclusionStats :=
  let st := runScan o ⟨[], emptyStats⟩ s
  (buildResult st.results, st.stats)

/-- The snapshot lists ancestors before descendants: no later entry is a
strict ancestor of an earlier one (the order a depth-first walk
produces). -/
def noLaterAncestor : List ScanEntry → Bool
  | [] => true
  | e :: r => r.all (fun b => !(strictAncestor b.path e.path)) && noLaterAncestor r

/-- Default options: content analysis off, hidden directories excluded,
no overrides, no ignore matcher, unreadable content. -/
def plainOptions : ScanOptions :=
  { analyzeContent := false
    excludeHidden := true
    includeIgnored := false
    includeAll := false
    ignoreMatcher := none
    readContent := fun _ => none }

/-- Options with an ignore matcher that matches nothing. -/
def probeMatcherOptions : ScanOptions :=
  { analyzeContent := false
    excludeHidden := true
    includeIgnored := false
    includeAll := false
    ignoreMatcher := some (fun _ => false)
    readContent := fun _ => none }

/-- A snapshot with a Layer-1 directory and a file beneath it. -/
def demoSnapshot : List ScanEntry :=
  [⟨["node_modules"], true⟩, ⟨["node_modules", "a.js"], false⟩]

/-- A frontmatter block with the `name` and `description` keys. -/
def demoFrontmatter : String :=
  "---\nname: a\ndescription: b\n---\nbody"

end Classify

/-! ## Theorems -/

namespace GoodPm

theorem pyGetD_obj (fs : List (String × Json)) (k : String) (d : Json) :
    pyGetD (.obj fs) k d = .ok (jsonGetD (.obj fs) k d) := rfl

theorem wfBlock_obj {b : Json} (h : wfBlock b = true) : ∃ g, b = .obj g := by
  cases b <;> first
    | exact ⟨_, rfl⟩
    | simp [wfBlock] at h

theorem wfMsg_obj {m : Json} (h : wfMsg m = true) : ∃ g, m = .obj g := by
  cases m <;> first
    | exact ⟨_, rfl⟩
    | simp [wfMsg] at h

theorem wfMsg_content {m : Json} (h : wfMsg m = true) :
    wfContent (jsonGetD m "content" (.str "")) = true := by
  obtain ⟨g, rfl⟩ := wfMsg_obj h
  simpa [wfMsg] using h

theorem all_not_eq_not_any {α : Type} (l : List α) (f : α → Bool) :
    (l.all fun x => !f x) = !(l.any f) := by
  induction l with
  | nil => rfl
  | cons a r ih => simp [List.all_cons, List.any_cons, ih]

theorem scanToolUse_wf (bs : List Json) (h : bs.all wfBlock = true) :
    scanToolUse bs =
      .ok (bs.any fun b => jeqStr (jsonGetD b "type" .null) "tool_use") := by
  induction bs with
  | nil => rfl
  | cons b r ih =>
    simp only [List.all_cons, Bool.and_eq_true] at h
    obtain ⟨g, hg⟩ := wfBlock_obj h.1
    subst hg
    by_cases ht : jeqStr (jsonGetD (.obj g) "type" .null) "tool_use"
    · simp [scanToolUse, pyGetD_obj, List.any_cons, ht]
    · simp [scanToolUse, pyGetD_obj, List.any_cons, ht, ih h.2]

theorem collectTexts_wf (bs : List Json) (h : bs.all wfBlock = true) :
    collectTexts bs = .ok (specTexts bs) := by
  induction bs with
  | nil => rfl
  | cons b r ih =>
    simp only [List.all_cons, Bool.and_eq_true] at h
    obtain ⟨g, hg⟩ := wfBlock_obj h.1
    subst hg
    have ihr := ih h.2
    by_cases ht : jeqStr (jsonGetD (.obj g) "type" .null) "text"
    · have hs : (jsonGetD (.obj g) "text" (.str "")).isStrB = true := by
        have hb := h.1
        simp only [wfBlock, ht, if_true] at hb
        exact hb
      obtain ⟨sx, hsx⟩ : ∃ sx, jsonGetD (.obj g) "text" (.str "") = .str sx := by
        cases hj : jsonGetD (.obj g) "text" (.str "") <;>
          simp [hj, Json.isStrB] at hs ⊢
      simp [collectTexts, pyGetD_obj, ht, hsx, ihr, specTexts,
        List.filterMap_cons, strOfD]
    · simp [collectTexts, pyGetD_obj, ht, ihr, specTexts, List.filterMap_cons]

theorem flagsStep_wf (m : Json) (h : wfMsg m = true) :
    flagsStep m = .ok (specToolB m, specPmB m) := by
  obtain ⟨g, hg⟩ := wfMsg_obj h
  have hc := wfMsg_content h
  subst hg
  cases hcv : jsonGetD (.obj g) "content" (.str "") with
  | str s =>
    simp [flagsStep, pyGetD_obj, hcv, specToolB, specPmB, msgText]
  | arr bs =>
    rw [hcv] at hc
    simp only [wfContent] at hc
    simp [flagsStep, pyGetD_obj, hcv, scanToolUse_wf bs hc,
      collectTexts_wf bs hc, specToolB, specPmB, msgText]
  | null => rw [hcv] at hc; simp [wfContent] at hc
  | bool b => rw [hcv] at hc; simp [wfContent] at hc
  | num n => rw [hcv] at hc; simp [wfContent] at hc
  | obj fs => rw [hcv] at hc; simp [wfContent] at hc

theorem flagsGo_wf (l : List Json) (h : l.all wfMsg = true) :
    ∀ t p, flagsGo t p l = .ok (t || l.any specToolB, p || l.any specPmB) := by
  induction l with
  | nil => intro t p; simp [flagsGo]
  | cons m r ih =>
    intro t p
    simp only [List.all_cons, Bool.and_eq_true] at h
    simp [flagsGo, flagsStep_wf m h.1, ih h.2, List.any_cons, Bool.or_assoc]

theorem computeFlags_wf (msgs : List Json) (h : msgs.all wfMsg = true) :
    computeFlags msgs = .ok (msgs.any specToolB, msgs.any specPmB) := by
  simpa [computeFlags] using flagsGo_wf msgs h false false

theorem laTextJson_wf (m : Json) (h : wfMsg m = true) :
    laTextJson m = .str (msgText m) := by
  have hc := wfMsg_content h
  cases hcv : jsonGetD m "content" (.str "") with
  | str s => simp [laTextJson, msgText, hcv]
  | arr bs => simp [laTextJson, msgText, hcv]
  | null => rw [hcv] at hc; simp [wfContent] at hc
  | bool b => rw [hcv] at hc; simp [wfContent] at hc
  | num n => rw [hcv] at hc; simp [wfContent] at hc
  | obj fs => rw [hcv] at hc; simp [wfContent] at hc

theorem findLAGo_wf (l : List Json) (h : l.all wfMsg = true) :
    findLAGo l = .ok ((l.find? asstB).map laTextJson) := by
  induction l with
  | nil => rfl
  | cons m r ih =>
    simp only [List.all_cons, Bool.and_eq_true] at h
    obtain ⟨g, hg⟩ := wfMsg_obj h.1
    have hc := wfMsg_content h.1
    by_cases ha : asstB m
    · subst hg
      simp only [asstB] at ha
      cases hcv : jsonGetD (.obj g) "content" (.str "") with
      | str s =>
        simp [findLAGo, pyGetD_obj, hcv, List.find?_cons, laTextJson, asstB, ha]
      | arr bs =>
        rw [hcv] at hc
        simp only [wfContent] at hc
        simp [findLAGo, pyGetD_obj, hcv, List.find?_cons, asstB, ha, laTextJson,
          collectTexts_wf bs hc]
      | null => rw [hcv] at hc; simp [wfContent] at hc
      | bool b => rw [hcv] at hc; simp [wfContent] at hc
      | num n => rw [hcv] at hc; simp [wfContent] at hc
      | obj fs => rw [hcv] at hc; simp [wfContent] at hc
    · subst hg
      have ha' : asstB (Json.obj g) = false := by simpa using ha
      simp only [asstB] at ha'
      simp [findLAGo, pyGetD_obj, ha', List.find?_cons, asstB, ih h.2]

theorem main_spec (w : World) (hi : Json) (msgs : List Json)
    (h1 : w.stdin = some hi) (h2 : hi.isObjB = true)
    (h3 : extractTranscript w hi = .ok (.arr msgs))
    (h4 : msgs.all wfMsg = true) :
    main w = .ok ((if blockCond w hi msgs then blockJson else approveJson), 0) := by
  obtain ⟨fl, rfl⟩ : ∃ fl, hi = .obj fl := by
    cases hi <;> first | exact ⟨_, rfl⟩ | simp [Json.isObjB] at h2
  simp only [main, h1, h3]
  simp only [mainCore, pyGetD_obj]
  by_cases hsha : jsonTruthy (jsonGetD (Json.obj fl) "stop_hook_active" (Json.bool false))
  · simp [hsha, blockCond]
  · simp only [hsha, Bool.false_eq_true, if_false]
    cases hgp : w.goodPmExists with
    | false => simp [blockCond, hgp]
    | true =>
      cases hsd : w.sessionDirExists with
      | false => simp [blockCond, hsd]
      | true =>
        simp only [Bool.not_true, Bool.false_eq_true, if_false, pyIter,
          computeFlags_wf msgs h4]
        have hrev : msgs.reverse.all wfMsg = true := by
          simp only [List.all_eq_true] at h4 ⊢
          intro m hm
          exact h4 m (List.mem_reverse.mp hm)
        by_cases hw : (!(msgs.any specToolB) && !(msgs.any specPmB)) = true
        · have hT : msgs.any specToolB = false := by
            revert hw; cases msgs.any specToolB <;> simp
          have hP : msgs.any specPmB = false := by
            revert hw; cases msgs.any specPmB <;> simp
          simp [hT, hP, blockCond]
        · have hTP : (msgs.any specToolB || msgs.any specPmB) = true := by
            revert hw
            cases msgs.any specToolB <;> cases msgs.any specPmB <;> simp
          simp only [hw, if_false, findLastAssistant, findLAGo_wf msgs.reverse hrev]
          cases hfind : msgs.reverse.find? asstB with
          | none =>
            simp [blockCond, hsha, hgp, hsd, hTP, specLastOk, hfind]
          | some m =>
            have hsha' : jsonTruthy
                (jsonGetD (Json.obj fl) "stop_hook_active" (Json.bool false)) = false := by
              simpa using hsha
            have hm : wfMsg m = true := by
              have hmem : m ∈ msgs.reverse := List.mem_of_find?_eq_some hfind
              simp only [List.all_eq_true] at h4
              exact h4 m (List.mem_reverse.mp hmem)
            simp only [Option.map_some', laTextJson_wf m hm]
            by_cases hemp : (msgText m).data.isEmpty = true
            · have hms : msgText m = "" := by
                have hd : (msgText m).data = [] := by simpa using hemp
                cases hs : msgText m with
                | mk d => rw [hs] at hd; simp at hd; rw [hd]
              have hlo : updateIndicators.all
                  (fun ind => !(strContains (lowerStr "") ind)) = true := by decide
              rw [hms]
              have htru : jsonTruthy (Json.str "") = false := rfl
              simp [htru, blockCond, hsha', hgp, hsd, hTP, specLastOk, hfind, hms, hlo]
            · have htru : jsonTruthy (Json.str (msgText m)) = true := by
                simp only [jsonTruthy]
                revert hemp
                cases (msgText m).data.isEmpty <;> simp
              by_cases hind : (updateIndicators.any
                  (fun ind => strContains (lowerStr (msgText m)) ind)) = true
              · have hlast : specLastOk msgs = false := by
                  simp [specLastOk, hfind, all_not_eq_not_any, hind]
                simp [htru, hind, blockCond, hlast]
              · have hind' : (updateIndicators.any
                    (fun ind => strContains (lowerStr (msgText m)) ind)) = false := by
                  revert hind
                  cases updateIndicators.any
                    (fun ind => strContains (lowerStr (msgText m)) ind) <;> simp
                have hlast : specLastOk msgs = true := by
                  simp [specLastOk, hfind, all_not_eq_not_any, hind']
                simp [htru, hind', blockCond, hsha', hgp, hsd, hTP, hlast]

theorem lookupKey_isSome_any (fs : List (String × Json)) (k : String) :
    (fs.any fun kv => kv.1 = k) = (lookupKey fs k).isSome := by
  induction fs with
  | nil => rfl
  | cons kv r ih =>
    obtain ⟨k', v⟩ := kv
    by_cases hk : k' = k
    · simp [List.any_cons, lookupKey, hk]
    · simp [List.any_cons, lookupKey, hk, ih]

theorem procLine_safe (j : Json) (h : safeLine (.val j) = true) :
    procLine j = .ok (lineEntry (.val j)) := by
  cases j with
  | obj fs =>
    cases hk : lookupKey fs "type" with
    | none =>
      have hnone : (fs.any fun kv => kv.1 = "type") = false := by
        rw [lookupKey_isSome_any, hk]; rfl
      simp [procLine, pyContains, hnone, lineEntry, hk]
    | some t =>
      have hsome : (fs.any fun kv => kv.1 = "type") = true := by
        rw [lookupKey_isSome_any, hk]; rfl
      cases t with
      | str t' =>
        cases ht : (decide (t' = "user") || decide (t' = "assistant")) with
        | false =>
          simp only [Bool.or_eq_false_iff, decide_eq_false_iff_not] at ht
          simp [procLine, pyContains, hsome, pyIndex, hk, jeqStr, ht.1, ht.2,
            lineEntry]
        | true =>
          have hm : ∃ mf, (lookupKey fs "message").getD (.obj []) = .obj mf := by
            simp only [safeLine, hk, jeqStr, ht, if_true] at h
            cases hmk : lookupKey fs "message" with
            | none => exact ⟨[], rfl⟩
            | some mv =>
              rw [hmk] at h
              cases mv <;> first | exact ⟨_, rfl⟩ | simp at h
          obtain ⟨mf, hmf⟩ := hm
          simp [procLine, pyContains, hsome, pyIndex, hk, jeqStr, ht, hmf,
            pyGetD, lineEntry, jsonGetD]
      | null =>
        simp [procLine, pyContains, hsome, pyIndex, hk, jeqStr, lineEntry]
      | bool b =>
        simp [procLine, pyContains, hsome, pyIndex, hk, jeqStr, lineEntry]
      | num n =>
        simp [procLine, pyContains, hsome, pyIndex, hk, jeqStr, lineEntry]
      | arr xs =>
        simp [procLine, pyContains, hsome, pyIndex, hk, jeqStr, lineEntry]
      | obj g =>
        simp [procLine, pyContains, hsome, pyIndex, hk, jeqStr, lineEntry]
  | str s =>
    have hc : strContains s "type" = false := by
      revert h; simp only [safeLine]
      cases strContains s "type" <;> simp
    simp [procLine, pyContains, hc, lineEntry]
  | arr xs =>
    have hc : (xs.any fun e => match e with | .str t => t = "type" | _ => false)
        = false := by
      revert h; simp only [safeLine]
      cases xs.any fun e => match e with | .str t => t = "type" | _ => false <;> simp
    simp [procLine, pyContains, hc, lineEntry]
  | null => simp [safeLine] at h
  | bool b => simp [safeLine] at h
  | num n => simp [safeLine] at h

theorem procLines_safe (lns : List TLine) (h : lns.all safeLine = true) :
    procLines lns = .ok (lns.filterMap lineEntry) := by
  induction lns with
  | nil => rfl
  | cons l r ih =>
    simp only [List.all_cons, Bool.and_eq_true] at h
    have ihr := ih h.2
    cases l with
    | blank => simpa [procLines, lineEntry, List.filterMap_cons] using ihr
    | bad => simpa [procLines, lineEntry, List.filterMap_cons] using ihr
    | val j =>
      cases he : lineEntry (.val j) with
      | none => simp [procLines, procLine_safe j h.1, he, List.filterMap_cons, ihr]
      | some e => simp [procLines, procLine_safe j h.1, he, List.filterMap_cons, ihr]

/-- C1: for every stdin input that parses as a JSON object and every
transcript whose entries are well-formed, `main` prints the block object
if and only if `stop_hook_active` is falsy, both `.good-pm` and
`.good-pm/session` exist, the transcript contains a `tool_use` block or a
message whose text contains a PM keyword, and the last assistant message
(if any) contains no update indicator; in every other completed run it
prints the approve object (and `main` returns 0). -/
theorem claim_C1_block_iff (w : World) (hi : Json) (msgs : List Json)
    (h1 : w.stdin = some hi) (h2 : hi.isObjB = true)
    (h3 : extractTranscript w hi = .ok (.arr msgs))
    (h4 : msgs.all wfMsg = true) :
    main w = .ok ((if blockCond w hi msgs then blockJson else approveJson), 0) :=
  main_spec w hi msgs h1 h2 h3 h4

/-- Witness for C1 at a concrete world: empty stdin object, no Good PM
directory, empty transcript; the blocking condition is false and `main`
approves. -/
theorem claim_C1_witness : main trivialWorld = .ok (approveJson, 0) := by
  have h := claim_C1_block_iff trivialWorld (.obj []) [] rfl rfl rfl rfl
  exact h

/-- Counterexample to C2 as stated: the stdin input is a valid JSON
object and every transcript file is well-formed (the file is empty), yet
`main` propagates a `TypeError` (iterating the number-valued inline
`transcript`) instead of printing a decision. -/
theorem claim_C2_counterexample :
    (Json.obj [("transcript", Json.num 5)]).isObjB = true ∧
    inlineNumWorld.stdin = some (.obj [("transcript", Json.num 5)]) ∧
    main inlineNumWorld = .error PyErr.exn :=
  ⟨rfl, rfl, rfl⟩

theorem pyErr_eq (e : PyErr) : e = .exn := by cases e; rfl

theorem mainCore_total (w : World) (hi ts : Json) :
    mainCore w hi ts = .error PyErr.exn ∨
    mainCore w hi ts = .ok (approveJson, 0) ∨
    mainCore w hi ts = .ok (blockJson, 0) := by
  unfold mainCore
  repeat' split
  all_goals try (left; exact congrArg Except.error (pyErr_eq _))
  all_goals try (right; left; rfl)
  all_goals try (right; right; rfl)

theorem main_total (w : World) :
    main w = .error PyErr.exn ∨
    main w = .ok (approveJson, 0) ∨ main w = .ok (blockJson, 0) := by
  cases hS : w.stdin with
  | none => right; left; simp [main, hS]
  | some hi =>
    cases hE : extractTranscript w hi with
    | error e => left; simp [main, hS, hE, pyErr_eq e]
    | ok ts =>
      have h := mainCore_total w hi ts
      simpa [main, hS, hE] using h

/-- C2 (amended): for every stdin input and transcript file, `main`
either propagates an exception (possible — see the counterexample) or
returns 0 having printed exactly one JSON object whose `decision` key is
`approve` or `block`, with a `reason` key exactly when the decision is
`block`; an unparsable stdin always yields decision `approve`. -/
theorem claim_C2_output_shape (w : World) :
    (w.stdin = none → main w = .ok (approveJson, 0)) ∧
    (main w = .error PyErr.exn ∨
      ∃ out, main w = .ok (out, 0) ∧
        (jsonGetD out "decision" .null = .str "approve" ∨
          jsonGetD out "decision" .null = .str "block") ∧
        (hasKey out "reason" = true ↔
          jsonGetD out "decision" .null = .str "block")) := by
  constructor
  · intro h0
    simp [main, h0]
  · rcases main_total w with h | h | h
    · left; exact h
    · right
      refine ⟨approveJson, h, Or.inl rfl, ?_, ?_⟩
      · intro hr; exact absurd hr (by decide)
      · intro hd; simp [approveJson, jsonGetD, lookupKey] at hd
    · right
      exact ⟨blockJson, h, Or.inr rfl, fun _ => rfl, fun _ => rfl⟩

/-- Witness for C2 (amended) at a concrete world with unparsable stdin:
`main` prints the approve object and returns 0. -/
theorem claim_C2_witness : main noInputWorld = .ok (approveJson, 0) :=
  (claim_C2_output_shape noInputWorld).1 rfl

/-- Counterexample to C3 as stated: a transcript file whose single line
parses to the JSON number 5 — an entry "of any other type", which the
claim says is skipped — makes `load_transcript` raise a `TypeError`
(`"type" in 5`) instead of returning a list. -/
theorem claim_C3_counterexample :
    load_transcript numLineFile (.str "t") = .error PyErr.exn := rfl

/-- C3 (amended): for every transcript file path, if the file cannot be
opened `load_transcript` returns the empty list; otherwise, provided no
non-empty line has one of the four exception-raising shapes (a JSON
number/boolean/null, a JSON string containing `type` as a substring, a
JSON list containing the string `type`, or a user/assistant object whose
present `message` is not an object), it returns, in file order, exactly
one `(role, content)` entry per line whose `type` is `user` or
`assistant` (content defaulting to the empty string), skipping every
other line — including non-object lines and non-conversation entries —
and no exception propagates. -/
theorem claim_C3_load_transcript (fs : Json → Option (List TLine)) (s : String) :
    (fs (.str s) = none → load_transcript fs (.str s) = .ok []) ∧
    (∀ lns, fs (.str s) = some lns → lns.all safeLine = true →
      load_transcript fs (.str s) = .ok (lns.filterMap lineEntry)) := by
  constructor
  · intro h
    simp [load_transcript, h]
  · intro lns h hwf
    simp [load_transcript, h, procLines_safe lns hwf]

/-- Witness for C3 at a concrete file: blank, non-JSON, JSON-string and
non-conversation lines (the latter with a numeric `message`) are skipped
without an exception and the user entry is returned. -/
theorem claim_C3_witness :
    load_transcript goodFile (.str "p") =
      .ok [Json.obj [("role", .str "user"), ("content", .str "hi")]] := by
  have h := (claim_C3_load_transcript goodFile "p").2
    [.blank, .bad,
     .val (.str "hello"),
     .val (.obj [("type", .str "user"),
                 ("message", .obj [("content", .str "hi")])]),
     .val (.obj [("type", .str "summary"), ("message", .num 5)])] rfl rfl
  exact h

end GoodPm

namespace Classify

/-- C4: for every file path, `classifyFile` with content analysis
returns (Other, Low) whenever Phase 1 yields nothing and the read fails,
the failure is not propagated, and every call returns some
(Category, Confidence) pair. -/
theorem claim_C4_read_failure (readContent : List String → Option String)
    (p : List String) (h1 : pathClassify p = none) (h2 : readContent p = none) :
    classifyFile readContent p true = (.other, .low) ∧
    ∀ (r : List String → Option String) (q : List String) (a : Bool),
      ∃ c conf, classifyFile r q a = (c, conf) := by
  constructor
  · simp [classifyFile, h1, h2]
  · intro r q a
    exact ⟨(classifyFile r q a).1, (classifyFile r q a).2, rfl⟩

/-- Witness for C4 at a concrete unreadable, Phase-1-less file. -/
theorem claim_C4_witness :
    classifyFile (fun _ => none) ["mystery.zzz"] true =
      (Category.other, Confidence.low) :=
  (claim_C4_read_failure (fun _ => none) ["mystery.zzz"] rfl rfl).1

/-- C5: whenever Phase 1 yields a category, `classifyFile` with content
analysis disabled equals `classifyFile` with content analysis enabled
(content analysis never overrides a Phase 1 hit). -/
theorem claim_C5_phase1_authoritative (readContent : List String → Option String)
    (p : List String) (c : Category) (h : pathClassify p = some c) :
    classifyFile readContent p false = classifyFile readContent p true := by
  simp [classifyFile, h]

/-- Witness for C5 at `tests/test_foo.py` (a Phase 1 hit). -/
theorem claim_C5_witness :
    classifyFile (fun _ => none) ["tests", "test_foo.py"] false =
      classifyFile (fun _ => none) ["tests", "test_foo.py"] true :=
  claim_C5_phase1_authoritative (fun _ => none) ["tests", "test_foo.py"] .tests rfl

/-- C6: `classifyTree` is deterministic and idempotent — in the
embedding the scan is a pure function of the snapshot and the options
(the statistics accumulator is freshly initialized on every call), so
two successive calls on an unmodified tree return identical results and
identical statistics. -/
theorem claim_C6_idempotent (o : ScanOptions) (s : List ScanEntry) :
    (classifyTree o s).1 = (classifyTree o s).1 ∧
    (classifyTree o s).2 = (classifyTree o s).2 :=
  ⟨rfl, rfl⟩

/-- C8: confidence strictly reflects the phase that produced the
category: a Phase 1 hit is High (never Medium or Low), a Phase 2 or
Phase 3 hit is Medium, a Phase 4 hit or the no-match / no-analysis
fallback is Low (never High). -/
theorem claim_C8_confidence_phase (readContent : List String → Option String)
    (p : List String) :
    (∀ c, pathClassify p = some c →
      ∀ a, classifyFile readContent p a = (c, .high)) ∧
    (∀ content c, pathClassify p = none → readContent p = some content →
      frontmatterCat content = some c →
      classifyFile readContent p true = (c, .medium)) ∧
    (∀ content c, pathClassify p = none → readContent p = some content →
      frontmatterCat content = none → structureCat content = some c →
      classifyFile readContent p true = (c, .medium)) ∧
    (∀ content c, pathClassify p = none → readContent p = some content →
      frontmatterCat content = none → structureCat content = none →
      keywordCat content = some c →
      classifyFile readContent p true = (c, .low)) ∧
    (∀ content, pathClassify p = none → readContent p = some content →
      frontmatterCat content = none → structureCat content = none →
      keywordCat content = none →
      classifyFile readContent p true = (.other, .low)) ∧
    (pathClassify p = none → classifyFile readContent p false = (.other, .low)) := by
  refine ⟨?_, ?_, ?_, ?_, ?_, ?_⟩ <;> intros <;> simp [classifyFile, *]

/-- Witness for C8: a Phase 2 frontmatter hit gets Medium confidence at
a concrete unclassifiable path with AI frontmatter content. -/
theorem claim_C8_witness :
    classifyFile (fun _ => some demoFrontmatter) ["x", "file.xyz"] true =
      (Category.aiTooling, Confidence.medium) :=
  (claim_C8_confidence_phase (fun _ => some demoFrontmatter) ["x", "file.xyz"]).2.1
    demoFrontmatter .aiTooling rfl rfl rfl

/-- Counterexample to C9 as stated: with a compiled matcher that matches
nothing, the directory `node_modules` is still pruned (Layer 1 runs
before Layer 2), so "the directory is kept" fails. -/
theorem claim_C9_counterexample :
    probeMatcherOptions.ignoreMatcher = some (fun _ => false) ∧
    dirDecision probeMatcherOptions "node_modules" ["node_modules"] ≠ .keep :=
  ⟨rfl, by decide⟩

/-- C9 (amended): for every directory with a present but non-matching
ignore matcher, provided the hidden rule and Layer 1 do not already
exclude it, the directory is kept; and whenever a matcher is present the
decision is independent of the Layer 3 extended-exclude tables (Layer 3
is only reached without a matcher). -/
theorem claim_C9_layer2_authoritative (o : ScanOptions) (m : String → Bool)
    (n : String) (rel : List String)
    (hm : o.ignoreMatcher = some m)
    (hnm : m (renderPath rel ++ "/") = false)
    (hh : hiddenExcl o n = false)
    (h1 : alwaysExclude.contains n = false) :
    dirDecision o n rel = .keep ∧
    ∀ extN1 extG1 extN2 extG2,
      dirDecisionGen extN1 extG1 o n rel = dirDecisionGen extN2 extG2 o n rel := by
  have h1' : n ∉ alwaysExclude := by simpa using h1
  constructor
  · by_cases hA : o.includeAll = true
    · simp [dirDecision, dirDecisionGen, hh, hA]
    · by_cases hI : o.includeIgnored = true
      · simp [dirDecision, dirDecisionGen, hh, hA, h1', hI]
      · simp [dirDecision, dirDecisionGen, hh, hA, h1', hI, hm, hnm]
  · intro extN1 extG1 extN2 extG2
    simp [dirDecisionGen, hm]

/-- Witness for C9 at the `src` directory with a matcher matching
nothing: the directory is kept. -/
theorem claim_C9_witness :
    dirDecision probeMatcherOptions "src" ["src"] = ExclDecision.keep :=
  (claim_C9_layer2_authoritative probeMatcherOptions (fun _ => false) "src" ["src"]
    rfl rfl rfl rfl).1

/-- C10: a file with a data extension missing all earlier Phase 1 steps
is classified Data inside a subdirectory; at the scan root it is Config
for json/yaml/yml and Data otherwise — in particular a root-level
`data.json` is (Config, High). -/
theorem claim_C10_data_rule (p : List String)
    (h1 : dirTableMatch (dirsOf p) = none)
    (h2 : aiFileMatch (lastName p) = false)
    (h3 : schemaFileMatch (lastName p) = false)
    (h4 : testFileMatch (lastName p) = false)
    (h5 : configFileMatch (lastName p) = false)
    (h6 : docFileMatch (lastName p) = false)
    (h7 : scriptExts.contains (extOf (lastName p)) = false)
    (h8 : sourceExts.contains (extOf (lastName p)) = false)
    (h9 : dataExts.contains (extOf (lastName p)) = true) :
    pathClassify p = some (dataRule p (lastName p)) ∧
    (∀ (r : List String → Option String) (a : Bool),
      classifyFile r ["data.json"] a = (.config, .high)) := by
  have h7' : extOf (lastName p) ∉ scriptExts := by simpa using h7
  have h8' : extOf (lastName p) ∉ sourceExts := by simpa using h8
  have h9' : extOf (lastName p) ∈ dataExts := by simpa using h9
  constructor
  · simp [pathClassify, h1, h2, h3, h4, h5, h6, h7', h8', h9']
  · intro r a
    rfl

/-- Witness for C10 at the root-level `data.json` itself. -/
theorem claim_C10_witness :
    classifyFile (fun _ => none) ["data.json"] true =
      (Category.config, Confidence.high) :=
  (claim_C10_data_rule ["data.json"] rfl rfl rfl rfl rfl rfl rfl rfl rfl).2
    (fun _ => none) true

end Classify

namespace Classify

theorem scanStep_chars (o : ScanOptions) (st : ScanState) (e : ScanEntry) :
    (scanStep o st e = st) ∨
    (e.isDir = true ∧ skipByPruned st.stats.excludedDirs e.path = false ∧
      (scanStep o st e).results = st.results ∧
      (scanStep o st e).stats.excludedDirs = e.path :: st.stats.excludedDirs) ∨
    (e.isDir = false ∧ skipByPruned st.stats.excludedDirs e.path = false ∧
      (scanStep o st e).results =
        st.results ++ [(e.path, classifyFile o.readContent e.path o.analyzeContent)] ∧
      (scanStep o st e).stats = st.stats) := by
  by_cases hs : skipByPruned st.stats.excludedDirs e.path = true
  · left; simp [scanStep, hs]
  · have hs' : skipByPruned st.stats.excludedDirs e.path = false := by
      revert hs; cases skipByPruned st.stats.excludedDirs e.path <;> simp
    by_cases hd : e.isDir = true
    · by_cases hk : dirDecision o (lastName e.path) e.path = .keep
      · left; simp [scanStep, hs', hd, hk]
      · right; left
        refine ⟨hd, hs', ?_, ?_⟩ <;> simp [scanStep, hs', hd, hk, recordExclusion]
    · have hd' : e.isDir = false := by
        revert hd; cases e.isDir <;> simp
      right; right
      refine ⟨hd', hs', ?_, ?_⟩ <;> simp [scanStep, hs', hd']

theorem scanStep_excl_mono (o : ScanOptions) (st : ScanState) (e : ScanEntry)
    (d : List String) (h : d ∈ st.stats.excludedDirs) :
    d ∈ (scanStep o st e).stats.excludedDirs := by
  rcases scanStep_chars o st e with hs | ⟨_, _, _, hexc⟩ | ⟨_, _, _, hst⟩
  · rwa [hs]
  · rw [hexc]; exact List.mem_cons_of_mem _ h
  · rwa [hst]

theorem runScan_no_desc (o : ScanOptions) (s : List ScanEntry) (st : ScanState)
    (d p : List String) (x : Category × Confidence)
    (hd : d ∈ st.stats.excludedDirs) (hanc : strictAncestor d p = true)
    (hin : (p, x) ∈ (runScan o st s).results) : (p, x) ∈ st.results := by
  induction s generalizing st with
  | nil => exact hin
  | cons e r ih =>
    simp only [runScan] at hin
    have hd1 : d ∈ (scanStep o st e).stats.excludedDirs :=
      scanStep_excl_mono o st e d hd
    have hstep := ih (scanStep o st e) hd1 hin
    rcases scanStep_chars o st e with hs | ⟨_, _, hres, _⟩ | ⟨_, hskip, hres, _⟩
    · rwa [hs] at hstep
    · rwa [hres] at hstep
    · rw [hres] at hstep
      rcases List.mem_append.mp hstep with hmem | hmem
      · exact hmem
      · exfalso
        have hp : p = e.path :=
          congrArg Prod.fst (List.mem_singleton.mp hmem)
        have hskip' : skipByPruned st.stats.excludedDirs e.path = true := by
          unfold skipByPruned
          rw [List.any_eq_true]
          exact ⟨d, hd, by rwa [hp] at hanc⟩
        rw [hskip'] at hskip
        cases hskip

theorem runScan_excl_src (o : ScanOptions) (s : List ScanEntry) (st : ScanState)
    (d : List String) (h : d ∈ (runScan o st s).stats.excludedDirs) :
    d ∈ st.stats.excludedDirs ∨ ∃ e ∈ s, e.path = d ∧ e.isDir = true := by
  induction s generalizing st with
  | nil => exact Or.inl h
  | cons e r ih =>
    simp only [runScan] at h
    rcases ih (scanStep o st e) h with h' | ⟨e', he', hp, hd⟩
    · rcases scanStep_chars o st e with hs | ⟨hdir, _, _, hexc⟩ | ⟨_, _, _, hst⟩
      · rw [hs] at h'; exact Or.inl h'
      · rw [hexc] at h'
        rcases List.mem_cons.mp h' with h'' | h''
        · exact Or.inr ⟨e, List.mem_cons_self e r, h''.symm, hdir⟩
        · exact Or.inl h''
      · rw [hst] at h'; exact Or.inl h'
    · exact Or.inr ⟨e', List.mem_cons_of_mem e he', hp, hd⟩

theorem runScan_excl_blocks (o : ScanOptions) (s : List ScanEntry) (st : ScanState)
    (d p : List String) (x : Category × Confidence)
    (hord : noLaterAncestor s = true)
    (hd0 : d ∉ st.stats.excludedDirs)
    (hdf : d ∈ (runScan o st s).stats.excludedDirs)
    (hanc : strictAncestor d p = true)
    (hin : (p, x) ∈ (runScan o st s).results) : (p, x) ∈ st.results := by
  induction s generalizing st with
  | nil => exact hin
  | cons e r ih =>
    simp only [noLaterAncestor, Bool.and_eq_true] at hord
    simp only [runScan] at hdf hin
    by_cases hd1 : d ∈ (scanStep o st e).stats.excludedDirs
    · have hA := runScan_no_desc o r (scanStep o st e) d p x hd1 hanc hin
      rcases scanStep_chars o st e with hs | ⟨_, _, hres, _⟩ | ⟨_, _, _, hst⟩
      · rwa [hs] at hA
      · rwa [hres] at hA
      · rw [hst] at hd1
        exact absurd hd1 hd0
    · have hin' := ih (scanStep o st e) hord.2 hd1 hdf hin
      rcases scanStep_chars o st e with hs | ⟨_, _, hres, _⟩ | ⟨hdir, hskip, hres, _⟩
      · rwa [hs] at hin'
      · rwa [hres] at hin'
      · rw [hres] at hin'
        rcases List.mem_append.mp hin' with hmem | hmem
        · exact hmem
        · exfalso
          have hp : p = e.path :=
            congrArg Prod.fst (List.mem_singleton.mp hmem)
          rcases runScan_excl_src o r (scanStep o st e) d hdf with hh | ⟨e', he', hpath, _⟩
          · exact hd1 hh
          · have hno := hord.1
            rw [List.all_eq_true] at hno
            have hb := hno e' he'
            rw [hpath, ← hp, hanc] at hb
            cases hb

theorem buildResult_mem (raw : List (List String × Category × Confidence))
    (cl : Category × List (List String × Confidence))
    (hcl : cl ∈ buildResult raw) (q : List String × Confidence) (hq : q ∈ cl.2) :
    (q.1, cl.1, q.2) ∈ raw := by
  unfold buildResult at hcl
  rcases List.mem_map.mp hcl with ⟨c, _, rfl⟩
  simp only at hq
  have hq' : q ∈ raw.filterMap (fun t =>
      if t.2.1 = c then some (t.1, t.2.2) else none) := by
    have hperm := List.perm_insertionSort
      (fun a b : List String × Confidence => pathLe a.1 b.1 = true)
      (raw.filterMap (fun t => if t.2.1 = c then some (t.1, t.2.2) else none))
    exact hperm.mem_iff.mp hq
  rcases List.mem_filterMap.mp hq' with ⟨t, ht, hsome⟩
  by_cases hcond : t.2.1 = c
  · rw [if_pos hcond] at hsome
    injection hsome with hq2
    rw [← hq2, ← hcond]
    exact ht
  · rw [if_neg hcond] at hsome
    cases hsome

/-- C7: for every scan, every directory pruned by the Exclusion Filter
(its relative path is in `ExclusionStats.excludedDirs`), and every
descendant path of that directory, the descendant appears in no
per-category list of the ClassificationResult, provided the snapshot
lists ancestors before descendants as a depth-first walk does. -/
theorem claim_C7_exclusion_transitive (o : ScanOptions) (s : List ScanEntry)
    (d p : List String)
    (hord : noLaterAncestor s = true)
    (hd : d ∈ (classifyTree o s).2.excludedDirs)
    (hanc : strictAncestor d p = true) :
    ∀ cl ∈ (classifyTree o s).1, ∀ q ∈ cl.2, q.1 ≠ p := by
  intro cl hcl q hq hqp
  unfold classifyTree at hd hcl
  have hraw := buildResult_mem _ cl hcl q hq
  rw [hqp] at hraw
  have h0 : d ∉ (⟨[], emptyStats⟩ : ScanState).stats.excludedDirs := by
    simp [emptyStats]
  have hfin := runScan_excl_blocks o s ⟨[], emptyStats⟩ d p (cl.1, q.2)
    hord h0 hd hanc hraw
  simp at hfin

/-- Witness for C7: `node_modules` is pruned at Layer 1 and the file
`node_modules/a.js` beneath it appears in no category list. -/
theorem claim_C7_witness :
    noLaterAncestor demoSnapshot = true ∧
    ["node_modules"] ∈ (classifyTree plainOptions demoSnapshot).2.excludedDirs ∧
    strictAncestor ["node_modules"] ["node_modules", "a.js"] = true ∧
    ∀ cl ∈ (classifyTree plainOptions demoSnapshot).1, ∀ q ∈ cl.2,
      q.1 ≠ ["node_modules", "a.js"] :=
  ⟨by decide, by decide, by decide,
   claim_C7_exclusion_transitive plainOptions demoSnapshot
     ["node_modules"] ["node_modules", "a.js"] (by decide) (by decide) (by decide)⟩

end Classify
